import Mathlib

/-!
Verification of the Habitat key cache
(components/core/src/crypto/keys/cache.rs).

The cache wraps a flat directory and stores key records, one file per
record, named by the record's NamedRevision plus a kind-specific
extension.  We give it a shallow embedding: the directory is an
association list from filename to file data (content plus permission
mode), and each cache operation is a state-passing function returning
the new directory together with an Except result, mirroring the Rust
Result return value.  Errors in the source are constructed exclusively
as Error::CryptoError(String) (with I/O errors propagated separately by
the ? operator), which we mirror with a two-constructor error type.
-/

deriving instance DecidableEq for Except

namespace Habitat

/-- NamedRevision: identifies a key record by (name, revision)
independent of key kind (keys/cache.rs uses it for lookup; the type
itself lives in keys.rs and is modelled by its two string fields). -/
structure NamedRevision where
  name : String
  revision : String
deriving DecidableEq, Repr

/-- Modelled from the spec: a key kind's capability contract (KeyFile
trait, not under src/).  Each kind declares a header tag identifying
the kind inside the file, a fixed filename extension, and a required
file permission mode. -/
structure KeyKind where
  tag : String
  extension : String
  permissions : Nat
deriving DecidableEq, Repr

/-- A key record: one key of one kind, with its NamedRevision and its
kind-specific key material (opaque to the cache). -/
structure KeyRecord where
  kind : KeyKind
  named_revision : NamedRevision
  material : String
deriving DecidableEq, Repr

/-- Modelled from the spec: the serialized on-disk text form of a key
file.  The wire format (header plus body text) is out of scope for the
cache, which treats content only as a byte string to hash and persist;
we model a file's bytes as either the canonical serialization of some
key record, or malformed bytes. -/
inductive FileContent where
  | key (k : KeyRecord)
  | malformed (raw : String)
deriving DecidableEq, Repr

/-- One file on disk: its content and its permission mode. -/
structure FileData where
  content : FileContent
  mode : Nat
deriving DecidableEq, Repr

/-- The cache directory: a flat association list from filename to file
data.  Every entry is a regular file. -/
abbrev FS := List (String × FileData)

/-- Look a filename up in the directory. -/
def lookupFS : FS → String → Option FileData
  | [], _ => none
  | (g, d) :: rest, f => if g = f then some d else lookupFS rest f

/-- Modelled from the spec: KeyFile::filename (keys.rs, not under
src/) deterministically maps a NamedRevision and extension to the
filename name-revision.extension. -/
def filenameFor (nr : NamedRevision) (ext : String) : String :=
  nr.name ++ "-" ++ nr.revision ++ "." ++ ext

/-- Modelled from the spec: KeyFile::own_filename of a record is the
filename built from its own NamedRevision and its kind's extension. -/
def KeyRecord.own_filename (k : KeyRecord) : String :=
  filenameFor k.named_revision k.kind.extension

/-- Modelled from the spec: KeyFile::to_key_string serializes a record
to its canonical on-disk text form (injective by construction). -/
def KeyRecord.to_key_string (k : KeyRecord) : FileContent :=
  FileContent.key k

/-- Modelled from the spec: the content digest collaborator
(crypto/hash, not under src/).  Equal content yields equal digest and
unequal content yields unequal digest, so we model the digest as the
content itself; the cache only ever compares digests for equality. -/
def hash_content (c : FileContent) : FileContent := c

/-- Errors as cache.rs constructs them: every cache-logic failure is
Error::CryptoError with a message string; filesystem failures
propagated by the ? operator are a separate variant. -/
inductive Error where
  | cryptoError (msg : String)
  | ioError (msg : String)
deriving DecidableEq, Repr

/-- Variant discriminant of an error value: which typed constructor of
the error enum carries it. -/
def Error.tag : Error → Nat
  | Error.cryptoError _ => 0
  | Error.ioError _ => 1

/-- Message of the conflict error raised by write_key (cache.rs line
147); the digest display arguments of the Rust format string are
omitted as external Display plumbing. -/
def conflictMsg (f : String) : String :=
  "Existing key file " ++ f ++
    " found but new version hash is different, failing to write new file over existing."

/-- Message of the pair-mismatch error raised by write_pair (cache.rs
line 86); the two NamedRevision display arguments are omitted as
external Display plumbing. -/
def pairMismatchMsg : String :=
  "Not saving key pair because they are not actually a pair!"

/-- Message of the no-revisions error raised by fetch_latest_revision
(cache.rs line 235). -/
def noRevisionsMsg (name : String) : String :=
  "No revisions found for " ++ name

/-- Message of the not-found error raised by fetch_specific_revision
(cache.rs line 250). -/
def keyNotFoundMsg (path : String) : String :=
  "Key not found in cache: " ++ path

/-- Message of the parse-failure error.  Modelled from the spec: the
parser (TryFrom, keys.rs, not under src/) fails distinctly on
malformed input or wrong kind markers. -/
def unsupportedKeyMsg : String :=
  "Could not parse key file"

/-- Modelled from the spec: the AtomicWriter collaborator (fs.rs, not
under src/) stages bytes and publishes them at the destination path
with the given permission mask, all-or-nothing. -/
def atomic_write (fs : FS) (path : String) (perms : Nat) (content : FileContent) : FS :=
  fs ++ [(path, ⟨content, perms⟩)]

/-- KeyCache::write_key (cache.rs lines 137-165).  If a file already
exists at the record's own path, compare content digests: different
digests fail with the conflict error, equal digests are a successful
no-op.  Otherwise publish the serialized content atomically with the
kind's permission mode. -/
def write_key (fs : FS) (k : KeyRecord) : FS × Except Error Unit :=
  let keyfile := k.own_filename
  let content := k.to_key_string
  match lookupFS fs keyfile with
  | some fd =>
      let existing_hash := hash_content fd.content
      let new_hash := hash_content content
      if existing_hash ≠ new_hash then
        (fs, Except.error (Error.cryptoError (conflictMsg keyfile)))
      else
        (fs, Except.ok ())
  | none =>
      (atomic_write fs keyfile k.kind.permissions content, Except.ok ())

/-- KeyCache::write_pair (cache.rs lines 81-103).  Distinct
NamedRevisions fail with the pair-mismatch error before touching the
filesystem; otherwise write the public record, then the secret record,
with no rollback of the first write if the second fails. -/
def write_pair (fs : FS) (pk sk : KeyRecord) : FS × Except Error Unit :=
  if pk.named_revision ≠ sk.named_revision then
    (fs, Except.error (Error.cryptoError pairMismatchMsg))
  else
    match write_key fs pk with
    | (fs1, Except.error e) => (fs1, Except.error e)
    | (fs1, Except.ok ()) => write_key fs1 sk

/-- Modelled from the spec and the glob crate call in
get_all_paths_for: a filename matches the pattern name-*.ext exactly
when it is the literal name, a hyphen, an arbitrary (possibly empty)
run of characters, a dot, and the literal extension. -/
def glob_matches (name ext : String) (f : String) : Bool :=
  let pre := name.data ++ ['-']
  let suf := '.' :: ext.data
  pre.isPrefixOf f.data && suf.isSuffixOf (f.data.drop pre.length)

/-- KeyCache::get_all_paths_for (cache.rs lines 270-284): all
directory entries whose filename matches name-*.ext and which are
regular files (every entry of the model directory is a regular
file). -/
def get_all_paths_for (fs : FS) (name ext : String) : List String :=
  (fs.map Prod.fst).filter (glob_matches name ext)

/-- Lexicographic order on filenames: PathBuf comparison within one
directory is byte-lexicographic comparison of the filename, which
coincides with lexicographic order on the character lists. -/
def path_lt (s t : String) : Bool :=
  decide (List.Lex (fun a b : Char => a < b) s.data t.data)

/-- Rust Iterator::max over the matched paths: the lexicographically
maximal element, the last one when several are equal, none when the
iterator is empty. -/
def iter_max (l : List String) : Option String :=
  l.foldl
    (fun acc f =>
      match acc with
      | none => some f
      | some m => if path_lt f m then some m else some f)
    none

/-- KeyCache::get_latest_path_for (cache.rs lines 289-291). -/
def get_latest_path_for (fs : FS) (name ext : String) : Option String :=
  iter_max (get_all_paths_for fs name ext)

/-- Modelled from the spec: the TryFrom parser of a key kind (keys.rs,
not under src/) parses a file's content back into a record, failing on
malformed bytes or on a header tag of a different kind. -/
def try_from (kind : KeyKind) (fd : FileData) : Except Error KeyRecord :=
  match fd.content with
  | FileContent.key k =>
      if k.kind = kind then Except.ok k
      else Except.error (Error.cryptoError unsupportedKeyMsg)
  | FileContent.malformed _ => Except.error (Error.cryptoError unsupportedKeyMsg)

/-- Reading a path produced by the directory scan: look the file up
and parse it (the scan only yields existing regular files, so the read
failure branch is the propagated I/O error of the source's ? operator). -/
def try_from_path (kind : KeyKind) (fs : FS) (path : String) : Except Error KeyRecord :=
  match lookupFS fs path with
  | some fd => try_from kind fd
  | none => Except.error (Error.ioError ("Error reading file " ++ path))

/-- KeyCache::fetch_latest_revision (cache.rs lines 229-239): scan for
the lexicographically latest matching path and parse it; with no
matching path, fail with the no-revisions error. -/
def fetch_latest_revision (kind : KeyKind) (fs : FS) (name : String) :
    Except Error KeyRecord :=
  match get_latest_path_for fs name kind.extension with
  | some path => try_from_path kind fs path
  | none => Except.error (Error.cryptoError (noRevisionsMsg name))

/-- KeyCache::fetch_specific_revision (cache.rs lines 243-253):
construct the expected filename from the NamedRevision and kind
extension; parse the file if it exists, otherwise fail with the
not-found error.  No scanning. -/
def fetch_specific_revision (kind : KeyKind) (fs : FS) (nr : NamedRevision) :
    Except Error KeyRecord :=
  let path_in_cache := filenameFor nr kind.extension
  match lookupFS fs path_in_cache with
  | some fd => try_from kind fd
  | none => Except.error (Error.cryptoError (keyNotFoundMsg path_in_cache))

/-- Ring key kind used for concrete instances (symmetric ring key,
secret permissions). -/
def ringKind : KeyKind := ⟨"SYM-SEC-1", "sym.key", 384⟩

/-- Public origin signing key kind used for concrete instances. -/
def pubSigKind : KeyKind := ⟨"SIG-PUB-1", "pub", 420⟩

/-- Secret origin signing key kind used for concrete instances. -/
def secSigKind : KeyKind := ⟨"SIG-SEC-1", "sig.key", 384⟩

/-! Helper lemmas about the directory association list. -/

theorem lookupFS_append_self (fs : FS) (f : String) (d : FileData)
    (h : lookupFS fs f = none) : lookupFS (fs ++ [(f, d)]) f = some d := by
  induction fs with
  | nil => simp [lookupFS]
  | cons hd tl ih =>
      obtain ⟨g, d'⟩ := hd
      by_cases hg : g = f
      · simp [lookupFS, hg] at h
      · simp only [List.cons_append, lookupFS, if_neg hg] at h ⊢
        exact ih h

theorem lookupFS_append_left (fs l : FS) (g : String) (d : FileData)
    (h : lookupFS fs g = some d) : lookupFS (fs ++ l) g = some d := by
  induction fs with
  | nil => simp [lookupFS] at h
  | cons hd tl ih =>
      obtain ⟨f, d'⟩ := hd
      by_cases hf : f = g
      · simp only [lookupFS, if_pos hf] at h
        simp only [List.cons_append, lookupFS, if_pos hf, h]
      · simp only [lookupFS, if_neg hf] at h
        simp only [List.cons_append, lookupFS, if_neg hf]
        exact ih h

/-! Helper lemmas unfolding write_key in its three cases. -/

theorem write_key_of_absent (fs : FS) (k : KeyRecord)
    (h : lookupFS fs k.own_filename = none) :
    write_key fs k =
      (fs ++ [(k.own_filename, ⟨FileContent.key k, k.kind.permissions⟩)], Except.ok ()) := by
  simp [write_key, h, atomic_write, KeyRecord.to_key_string]

theorem write_key_of_conflict (fs : FS) (k : KeyRecord) (fd : FileData)
    (h : lookupFS fs k.own_filename = some fd)
    (hne : fd.content ≠ FileContent.key k) :
    write_key fs k = (fs, Except.error (Error.cryptoError (conflictMsg k.own_filename))) := by
  simp [write_key, h, hash_content, KeyRecord.to_key_string, hne]

theorem write_key_of_same (fs : FS) (k : KeyRecord) (fd : FileData)
    (h : lookupFS fs k.own_filename = some fd)
    (heq : fd.content = FileContent.key k) :
    write_key fs k = (fs, Except.ok ()) := by
  simp [write_key, h, hash_content, KeyRecord.to_key_string, heq]

/-- After a successful write the record's own path holds its canonical
serialization (either freshly created with the kind's permissions, or
a pre-existing identical file). -/
theorem write_key_ok_lookup (fs fs' : FS) (k : KeyRecord)
    (h : write_key fs k = (fs', Except.ok ())) :
    ∃ m, lookupFS fs' k.own_filename = some ⟨FileContent.key k, m⟩ := by
  cases hl : lookupFS fs k.own_filename with
  | none =>
      rw [write_key_of_absent fs k hl] at h
      obtain ⟨hfs, -⟩ := Prod.mk.injEq .. ▸ h
      refine ⟨k.kind.permissions, ?_⟩
      rw [← hfs]
      exact lookupFS_append_self fs _ _ hl
  | some fd =>
      by_cases hc : fd.content = FileContent.key k
      · rw [write_key_of_same fs k fd hl hc] at h
        obtain ⟨hfs, -⟩ := Prod.mk.injEq .. ▸ h
        refine ⟨fd.mode, ?_⟩
        rw [← hfs, hl, ← hc]
      · rw [write_key_of_conflict fs k fd hl hc] at h
        exact absurd (congrArg Prod.snd h) (by simp)

/-- A write_key call that returns an error leaves the directory
exactly as it was: the only error branch returns the input state. -/
theorem write_key_error_state (fs : FS) (k : KeyRecord) (e : Error)
    (h : (write_key fs k).snd = Except.error e) :
    write_key fs k = (fs, Except.error e) := by
  cases hl : lookupFS fs k.own_filename with
  | none =>
      rw [write_key_of_absent fs k hl] at h
      simp at h
  | some fd =>
      by_cases hc : fd.content = FileContent.key k
      · rw [write_key_of_same fs k fd hl hc] at h
        simp at h
      · rw [write_key_of_conflict fs k fd hl hc] at h ⊢
        simp at h
        rw [h]

/-! Helper lemmas about lexicographic order on filenames. -/

/-- Lexicographic order on character lists is preserved by appending
arbitrary tails when the two lists have equal length (the fixed-width
revision property the source relies on). -/
theorem lex_append_of_length_eq (x y : List Char) :
    ∀ {l1 l2 : List Char}, List.Lex (fun a b : Char => a < b) l1 l2 →
      l1.length = l2.length →
      List.Lex (fun a b : Char => a < b) (l1 ++ x) (l2 ++ y) := by
  intro l1 l2 h
  induction h with
  | nil => intro hlen; simp at hlen
  | cons h ih =>
      intro hlen
      exact List.Lex.cons (ih (Nat.succ_injective hlen))
  | rel hr =>
      intro hlen
      exact List.Lex.rel hr

theorem path_lt_trans (s t u : String) (h1 : path_lt s t = true) (h2 : path_lt t u = true) :
    path_lt s u = true := by
  rw [path_lt, decide_eq_true_iff] at h1 h2 ⊢
  exact Trans.trans h1 h2

theorem path_lt_asymm (s t : String) (h : path_lt s t = true) : path_lt t s = false := by
  rw [path_lt, decide_eq_true_iff] at h
  rw [path_lt, decide_eq_false_iff_not]
  exact asymm h

theorem path_lt_ne (s t : String) (h : path_lt s t = true) : s ≠ t := by
  rw [path_lt, decide_eq_true_iff] at h
  intro he
  subst he
  exact asymm h h

theorem filenameFor_data (n r e : String) :
    (filenameFor ⟨n, r⟩ e).data = (n.data ++ ['-']) ++ (r.data ++ ('.' :: e.data)) := by
  simp [filenameFor, String.data_append]

/-- Filenames built from equal-length, lexicographically ordered
revisions of the same name and extension are themselves
lexicographically ordered. -/
theorem filenameFor_lt (kind_e n r1 r2 : String)
    (hlen : r1.length = r2.length) (h : path_lt r1 r2 = true) :
    path_lt (filenameFor ⟨n, r1⟩ kind_e) (filenameFor ⟨n, r2⟩ kind_e) = true := by
  rw [path_lt, decide_eq_true_iff] at h ⊢
  rw [filenameFor_data, filenameFor_data]
  exact List.Lex.append_left _ (lex_append_of_length_eq _ _ h hlen) _

theorem isPrefixOf_append_self (l t : List Char) : l.isPrefixOf (l ++ t) = true := by
  induction l with
  | nil => simp [List.isPrefixOf]
  | cons a as ih => simp [List.isPrefixOf, ih]

theorem isSuffixOf_append_self (t l : List Char) : l.isSuffixOf (t ++ l) = true := by
  simp [List.isSuffixOf, List.reverse_append, isPrefixOf_append_self]

/-- Every revision of a name matches the glob pattern the scan uses
for that name and extension. -/
theorem glob_matches_own (n e r : String) :
    glob_matches n e (filenameFor ⟨n, r⟩ e) = true := by
  rw [glob_matches]
  simp only [filenameFor_data]
  rw [List.drop_left' (by simp)]
  simp [isPrefixOf_append_self, isSuffixOf_append_self]

/-! Claim theorems. -/

/-- C1: when the destination file of key record k2 already exists in
the cache with content whose digest differs from the digest of k2's
serialized content, write_key fails with the conflict error and the
existing file (content and all) is left unchanged on disk. -/
theorem C1_write_key_conflict_preserves (fs : FS) (k2 : KeyRecord) (fd : FileData)
    (hexists : lookupFS fs k2.own_filename = some fd)
    (hdiff : hash_content fd.content ≠ hash_content k2.to_key_string) :
    write_key fs k2 = (fs, Except.error (Error.cryptoError (conflictMsg k2.own_filename))) ∧
    lookupFS (write_key fs k2).fst k2.own_filename = some fd := by
  have hne : fd.content ≠ FileContent.key k2 := by
    intro hc
    exact hdiff (by simp [hash_content, KeyRecord.to_key_string, hc])
  have hw := write_key_of_conflict fs k2 fd hexists hne
  exact ⟨hw, by rw [hw]; exact hexists⟩

/-- Key record used for the C1 witness. -/
def k1w : KeyRecord := ⟨ringKind, ⟨"beyonce", "20160504220722"⟩, "new-material"⟩

/-- Directory used for the C1 witness: the destination of k1w already
holds different content. -/
def fs1w : FS := [("beyonce-20160504220722.sym.key", ⟨FileContent.malformed "old-bytes", 384⟩)]

/-- Witness for C1 at a concrete conflicting write. -/
theorem C1_witness :
    lookupFS fs1w k1w.own_filename = some ⟨FileContent.malformed "old-bytes", 384⟩ ∧
    hash_content (FileContent.malformed "old-bytes") ≠ hash_content k1w.to_key_string ∧
    (write_key fs1w k1w =
        (fs1w, Except.error (Error.cryptoError (conflictMsg k1w.own_filename))) ∧
      lookupFS (write_key fs1w k1w).fst k1w.own_filename =
        some ⟨FileContent.malformed "old-bytes", 384⟩) :=
  ⟨by decide, by decide,
    C1_write_key_conflict_preserves fs1w k1w ⟨FileContent.malformed "old-bytes", 384⟩
      (by decide) (by decide)⟩

/-- C2: a successful write_key followed by write_key of the same
record succeeds again and leaves the directory byte-for-byte
identical: the second write is a no-op returning success because the
existing file's digest equals the record's content digest. -/
theorem C2_write_key_idempotent (fs fs' : FS) (k : KeyRecord)
    (h : write_key fs k = (fs', Except.ok ())) :
    write_key fs' k = (fs', Except.ok ()) := by
  obtain ⟨m, hm⟩ := write_key_ok_lookup fs fs' k h
  exact write_key_of_same fs' k ⟨FileContent.key k, m⟩ hm rfl

/-- Key record used for the C2 witness. -/
def k2w : KeyRecord := ⟨ringKind, ⟨"beyonce", "20160504220722"⟩, "ring-material"⟩

/-- Witness for C2: writing k2w twice from the empty cache succeeds
both times and leaves identical bytes. -/
theorem C2_witness :
    write_key [] k2w =
      ([("beyonce-20160504220722.sym.key", ⟨FileContent.key k2w, 384⟩)], Except.ok ()) ∧
    write_key [("beyonce-20160504220722.sym.key", ⟨FileContent.key k2w, 384⟩)] k2w =
      ([("beyonce-20160504220722.sym.key", ⟨FileContent.key k2w, 384⟩)], Except.ok ()) :=
  ⟨by decide,
    C2_write_key_idempotent [] [("beyonce-20160504220722.sym.key", ⟨FileContent.key k2w, 384⟩)]
      k2w (by decide)⟩

/-- C5: write_pair on records whose NamedRevisions differ fails with
the pair-mismatch error and returns the directory unchanged, before
any filesystem interaction: no file is created. -/
theorem C5_write_pair_mismatch (fs : FS) (pk sk : KeyRecord)
    (h : pk.named_revision ≠ sk.named_revision) :
    write_pair fs pk sk = (fs, Except.error (Error.cryptoError pairMismatchMsg)) := by
  simp [write_pair, h]

/-- Public half used for the C5 and C7 witnesses. -/
def pkw : KeyRecord := ⟨pubSigKind, ⟨"alice", "20240101120000"⟩, "public-material"⟩

/-- Secret half with a different NamedRevision used for the C5 witness. -/
def skwBad : KeyRecord := ⟨secSigKind, ⟨"bob", "20240101120000"⟩, "secret-material"⟩

/-- Witness for C5 at a concrete mismatched pair. -/
theorem C5_witness :
    pkw.named_revision ≠ skwBad.named_revision ∧
    write_pair [] pkw skwBad = ([], Except.error (Error.cryptoError pairMismatchMsg)) :=
  ⟨by decide, C5_write_pair_mismatch [] pkw skwBad (by decide)⟩

/-- C10: when the destination file already exists with content whose
digest equals the new record's, write_key succeeds without any
filesystem mutation: the directory is returned unchanged, so the
pre-existing file keeps its existing permission mode even when that
mode differs from the kind's required permissions. -/
theorem C10_write_key_noop_keeps_mode (fs : FS) (k : KeyRecord) (fd : FileData)
    (hexists : lookupFS fs k.own_filename = some fd)
    (hsame : hash_content fd.content = hash_content k.to_key_string) :
    write_key fs k = (fs, Except.ok ()) ∧
    lookupFS (write_key fs k).fst k.own_filename = some fd := by
  have hc : fd.content = FileContent.key k := hsame
  have hw := write_key_of_same fs k fd hexists hc
  exact ⟨hw, by rw [hw]; exact hexists⟩

/-- C6: when no file exists at a record's destination path, write_key
publishes the serialized content through the atomic writer with the
record's kind-specific permission mode, and this is the only path that
creates new bytes: every call either leaves the directory unchanged or
appends exactly the one new file, and every existing file's bytes and
mode are preserved. -/
theorem C6_write_key_creates_at_most_one (fs : FS) (k : KeyRecord) :
    (lookupFS fs k.own_filename = none →
      write_key fs k =
        (atomic_write fs k.own_filename k.kind.permissions k.to_key_string, Except.ok ())) ∧
    ((write_key fs k).fst = fs ∨
      (write_key fs k).fst =
        fs ++ [(k.own_filename, ⟨FileContent.key k, k.kind.permissions⟩)]) ∧
    (∀ f d, lookupFS fs f = some d → lookupFS (write_key fs k).fst f = some d) := by
  refine ⟨fun h => write_key_of_absent fs k h, ?_, ?_⟩
  · cases hl : lookupFS fs k.own_filename with
    | none => right; rw [write_key_of_absent fs k hl]
    | some fd =>
        left
        by_cases hc : fd.content = FileContent.key k
        · rw [write_key_of_same fs k fd hl hc]
        · rw [write_key_of_conflict fs k fd hl hc]
  · intro f d hd
    cases hl : lookupFS fs k.own_filename with
    | none =>
        rw [write_key_of_absent fs k hl]
        exact lookupFS_append_left fs _ f d hd
    | some fd =>
        by_cases hc : fd.content = FileContent.key k
        · rw [write_key_of_same fs k fd hl hc]; exact hd
        · rw [write_key_of_conflict fs k fd hl hc]; exact hd

/-- Key record used for the C6 witness. -/
def k6w : KeyRecord := ⟨ringKind, ⟨"beyonce", "20160504220722"⟩, "ring-material"⟩

/-- Directory used for the C6 witness: one unrelated pre-existing file. -/
def fs6w : FS := [("jayz-20160504220722.sym.key", ⟨FileContent.malformed "other", 384⟩)]

/-- Witness for C6: a fresh write appends exactly one file with the
kind's permissions and preserves the unrelated existing file. -/
theorem C6_witness :
    write_key fs6w k6w =
      (atomic_write fs6w k6w.own_filename k6w.kind.permissions k6w.to_key_string,
        Except.ok ()) ∧
    lookupFS (write_key fs6w k6w).fst "jayz-20160504220722.sym.key" =
      some ⟨FileContent.malformed "other", 384⟩ :=
  ⟨(C6_write_key_creates_at_most_one fs6w k6w).1 (by decide),
    (C6_write_key_creates_at_most_one fs6w k6w).2.2 "jayz-20160504220722.sym.key"
      ⟨FileContent.malformed "other", 384⟩ (by decide)⟩

/-- C7: when the NamedRevisions match, write_pair writes the public
record then the secret record via write_key; it is not transactional:
if the public write succeeds and the secret write fails, the result is
the secret write's own error with the directory as the public write
left it, so the cache keeps the already-written public half with no
rollback. -/
theorem C7_write_pair_not_transactional (fs fs1 : FS) (pk sk : KeyRecord) (e : Error)
    (hnr : pk.named_revision = sk.named_revision)
    (hpub : write_key fs pk = (fs1, Except.ok ()))
    (hsec : (write_key fs1 sk).snd = Except.error e) :
    write_pair fs pk sk = (fs1, Except.error e) ∧
    ∃ m, lookupFS fs1 pk.own_filename = some ⟨FileContent.key pk, m⟩ := by
  constructor
  · have hs := write_key_error_state fs1 sk e hsec
    simp only [write_pair, hnr, ne_eq, not_true_eq_false, if_false, hpub, hs]
  · exact write_key_ok_lookup fs fs1 pk hpub

/-- Public half used for the C7 witness. -/
def pk7w : KeyRecord := ⟨pubSigKind, ⟨"alice", "20240101120000"⟩, "public-material"⟩

/-- Secret half used for the C7 witness (same NamedRevision). -/
def sk7w : KeyRecord := ⟨secSigKind, ⟨"alice", "20240101120000"⟩, "secret-material"⟩

/-- Directory used for the C7 witness: the secret half's destination
already holds different content, so its write will conflict. -/
def fs7w : FS := [("alice-20240101120000.sig.key", ⟨FileContent.malformed "stale", 384⟩)]

/-- Directory after the public half of the C7 witness pair is written. -/
def fs7w1 : FS :=
  fs7w ++ [("alice-20240101120000.pub", ⟨FileContent.key pk7w, 420⟩)]

/-- Witness for C7: the public half lands, the secret half conflicts,
and write_pair surfaces the secret write's conflict error over the
directory that still contains the public half. -/
theorem C7_witness :
    write_pair fs7w pk7w sk7w =
      (fs7w1, Except.error (Error.cryptoError (conflictMsg "alice-20240101120000.sig.key"))) ∧
    ∃ m, lookupFS fs7w1 pk7w.own_filename = some ⟨FileContent.key pk7w, m⟩ :=
  C7_write_pair_not_transactional fs7w fs7w1 pk7w sk7w
    (Error.cryptoError (conflictMsg "alice-20240101120000.sig.key"))
    (by decide) (by decide) (by decide)

/-- C4: fetch_specific_revision builds the expected filename from the
NamedRevision and kind extension without scanning; for every record
successfully written it returns exactly that record, and for a
NamedRevision with no file in the cache it fails with the not-found
error. -/
theorem C4_fetch_specific_roundtrip :
    (∀ fs k fs', write_key fs k = (fs', Except.ok ()) →
      fetch_specific_revision k.kind fs' k.named_revision = Except.ok k) ∧
    (∀ kind fs nr, lookupFS fs (filenameFor nr kind.extension) = none →
      fetch_specific_revision kind fs nr =
        Except.error (Error.cryptoError (keyNotFoundMsg (filenameFor nr kind.extension)))) := by
  constructor
  · intro fs k fs' h
    obtain ⟨m, hm⟩ := write_key_ok_lookup fs fs' k h
    have hpath : filenameFor k.named_revision k.kind.extension = k.own_filename := rfl
    simp [fetch_specific_revision, hpath, hm, try_from]
  · intro kind fs nr h
    simp [fetch_specific_revision, h]

/-- Key record used for the C4 witness. -/
def k4w : KeyRecord := ⟨ringKind, ⟨"beyonce", "20160504220722"⟩, "ring-material"⟩

/-- Witness for C4: after writing k4w into the empty cache its
NamedRevision reads back exactly, while an unwritten NamedRevision
fails with the not-found error. -/
theorem C4_witness :
    fetch_specific_revision k4w.kind
      [("beyonce-20160504220722.sym.key", ⟨FileContent.key k4w, 384⟩)]
      k4w.named_revision = Except.ok k4w ∧
    fetch_specific_revision ringKind [] ⟨"nope-nope", "20160504220722"⟩ =
      Except.error
        (Error.cryptoError (keyNotFoundMsg (filenameFor ⟨"nope-nope", "20160504220722"⟩
          ringKind.extension))) :=
  ⟨C4_fetch_specific_roundtrip.1 []
      k4w [("beyonce-20160504220722.sym.key", ⟨FileContent.key k4w, 384⟩)] (by decide),
    C4_fetch_specific_roundtrip.2 ringKind [] ⟨"nope-nope", "20160504220722"⟩ (by decide)⟩

/-- C3: fetch_latest_revision scans the cache for regular files whose
name matches the pattern name-*.extension and picks the
lexicographically maximal filename: on the empty cache it fails with
the no-revisions (NotFound) error, and after writing three revisions
r1 < r2 < r3 (lexicographically, of the fixed width the revision
format guarantees) of the same name and kind it returns exactly the
record of r3. -/
theorem C3_fetch_latest_is_lex_max (kind : KeyKind) (n r1 r2 r3 m1 m2 m3 : String)
    (hlen12 : r1.length = r2.length) (hlen23 : r2.length = r3.length)
    (h12 : path_lt r1 r2 = true) (h23 : path_lt r2 r3 = true) :
    fetch_latest_revision kind [] n =
      Except.error (Error.cryptoError (noRevisionsMsg n)) ∧
    (∃ fs1 fs2 fs3,
      write_key [] (⟨kind, ⟨n, r1⟩, m1⟩ : KeyRecord) = (fs1, Except.ok ()) ∧
      write_key fs1 (⟨kind, ⟨n, r2⟩, m2⟩ : KeyRecord) = (fs2, Except.ok ()) ∧
      write_key fs2 (⟨kind, ⟨n, r3⟩, m3⟩ : KeyRecord) = (fs3, Except.ok ()) ∧
      fetch_latest_revision kind fs3 n =
        Except.ok (⟨kind, ⟨n, r3⟩, m3⟩ : KeyRecord)) := by
  refine ⟨rfl, ?_⟩
  have hf12 : path_lt (filenameFor ⟨n, r1⟩ kind.extension)
      (filenameFor ⟨n, r2⟩ kind.extension) = true :=
    filenameFor_lt kind.extension n r1 r2 hlen12 h12
  have hf23 : path_lt (filenameFor ⟨n, r2⟩ kind.extension)
      (filenameFor ⟨n, r3⟩ kind.extension) = true :=
    filenameFor_lt kind.extension n r2 r3 hlen23 h23
  have hf13 := path_lt_trans _ _ _ hf12 hf23
  have hne12 := path_lt_ne _ _ hf12
  have hne13 := path_lt_ne _ _ hf13
  have hne23 := path_lt_ne _ _ hf23
  have ha21 := path_lt_asymm _ _ hf12
  have ha32 := path_lt_asymm _ _ hf23
  refine ⟨[(filenameFor ⟨n, r1⟩ kind.extension,
          ⟨FileContent.key ⟨kind, ⟨n, r1⟩, m1⟩, kind.permissions⟩)],
        [(filenameFor ⟨n, r1⟩ kind.extension,
          ⟨FileContent.key ⟨kind, ⟨n, r1⟩, m1⟩, kind.permissions⟩),
         (filenameFor ⟨n, r2⟩ kind.extension,
          ⟨FileContent.key ⟨kind, ⟨n, r2⟩, m2⟩, kind.permissions⟩)],
        [(filenameFor ⟨n, r1⟩ kind.extension,
          ⟨FileContent.key ⟨kind, ⟨n, r1⟩, m1⟩, kind.permissions⟩),
         (filenameFor ⟨n, r2⟩ kind.extension,
          ⟨FileContent.key ⟨kind, ⟨n, r2⟩, m2⟩, kind.permissions⟩),
         (filenameFor ⟨n, r3⟩ kind.extension,
          ⟨FileContent.key ⟨kind, ⟨n, r3⟩, m3⟩, kind.permissions⟩)], ?_, ?_, ?_, ?_⟩
  · exact write_key_of_absent [] _ rfl
  · exact write_key_of_absent _ _ (by simp [lookupFS, KeyRecord.own_filename, hne12])
  · exact write_key_of_absent _ _
      (by simp [lookupFS, KeyRecord.own_filename, hne13, hne23])
  · simp only [fetch_latest_revision, get_latest_path_for, get_all_paths_for,
      List.map_cons, List.map_nil, List.filter, glob_matches_own, iter_max,
      List.foldl, ha21, ha32, Bool.false_eq_true, if_false, try_from_path]
    simp [lookupFS, KeyRecord.own_filename, hne13, hne23, try_from]

/-- Witness for C3 at a concrete kind, name, and three ordered
equal-width revisions. -/
theorem C3_witness :
    ("r1" : String).length = ("r2" : String).length ∧
    ("r2" : String).length = ("r3" : String).length ∧
    path_lt "r1" "r2" = true ∧ path_lt "r2" "r3" = true ∧
    (fetch_latest_revision ringKind [] "x" =
        Except.error (Error.cryptoError (noRevisionsMsg "x")) ∧
      (∃ fs1 fs2 fs3,
        write_key [] (⟨ringKind, ⟨"x", "r1"⟩, "m1"⟩ : KeyRecord) = (fs1, Except.ok ()) ∧
        write_key fs1 (⟨ringKind, ⟨"x", "r2"⟩, "m2"⟩ : KeyRecord) = (fs2, Except.ok ()) ∧
        write_key fs2 (⟨ringKind, ⟨"x", "r3"⟩, "m3"⟩ : KeyRecord) = (fs3, Except.ok ()) ∧
        fetch_latest_revision ringKind fs3 "x" =
          Except.ok (⟨ringKind, ⟨"x", "r3"⟩, "m3"⟩ : KeyRecord))) :=
  ⟨by decide, by decide, by decide, by decide,
    C3_fetch_latest_is_lex_max ringKind "x" "r1" "r2" "r3" "m1" "m2" "m3"
      (by decide) (by decide) (by decide) (by decide)⟩

/-- Ring key whose name contains a hyphen, used for C9. -/
def k9w : KeyRecord := ⟨ringKind, ⟨"foo-bar", "20240101120000"⟩, "ring-material"⟩

/-- Cache holding only the key named foo-bar, used for C9. -/
def fs9w : FS := [("foo-bar-20240101120000.sym.key", ⟨FileContent.key k9w, 384⟩)]

/-- C9: because the latest-revision scan matches the glob pattern
name-*.extension, a cache state and requested name exist for which
fetch_latest_revision returns a key whose name is not the requested
one: requesting "foo" when only a same-kind key named "foo-bar" is
cached returns the "foo-bar" record. -/
theorem C9_scan_crosses_names :
    write_key [] k9w = (fs9w, Except.ok ()) ∧
    fetch_latest_revision ringKind fs9w "foo" = Except.ok k9w ∧
    k9w.named_revision.name ≠ "foo" :=
  ⟨by decide, by decide, by decide⟩

/-- Conflicting record used for the C8 counterexample and witness. -/
def k8w : KeyRecord := ⟨ringKind, ⟨"beyonce", "20160504220722"⟩, "new-material"⟩

/-- Directory whose one file conflicts with k8w, used for C8. -/
def fs8w : FS := [("beyonce-20160504220722.sym.key", ⟨FileContent.malformed "old-bytes", 384⟩)]

/-- Mismatched public half used for C8. -/
def pk8w : KeyRecord := ⟨pubSigKind, ⟨"alice", "20240101120000"⟩, "public-material"⟩

/-- Mismatched secret half used for C8. -/
def sk8w : KeyRecord := ⟨secSigKind, ⟨"bob", "20240101120000"⟩, "secret-material"⟩

/-- Counterexample to C8 as stated: three of the four error
conditions - a write conflict, a pair mismatch, and a latest-scan
NotFound - are all returned through the one CryptoError variant of the
error type (equal variant tags), so they are not distinct typed error
kinds from which a caller could tell the conditions apart; only the
message strings differ. -/
theorem C8_counterexample :
    (write_key fs8w k8w).snd =
      Except.error (Error.cryptoError (conflictMsg "beyonce-20160504220722.sym.key")) ∧
    (write_pair [] pk8w sk8w).snd = Except.error (Error.cryptoError pairMismatchMsg) ∧
    fetch_latest_revision ringKind [] "nobody" =
      Except.error (Error.cryptoError (noRevisionsMsg "nobody")) ∧
    Error.tag (Error.cryptoError (conflictMsg "beyonce-20160504220722.sym.key")) =
      Error.tag (Error.cryptoError pairMismatchMsg) ∧
    Error.tag (Error.cryptoError pairMismatchMsg) =
      Error.tag (Error.cryptoError (noRevisionsMsg "nobody")) ∧
    Error.cryptoError (conflictMsg "beyonce-20160504220722.sym.key") ≠
      Error.cryptoError pairMismatchMsg := by
  refine ⟨by decide, by decide, by decide, rfl, rfl, by decide⟩

/-- C8 amended: each of the four error conditions is surfaced to the
caller as an error value of the operations' result type, with no
internal retry (each operation is a single pass by construction); but
Conflict, PairMismatch and the two NotFound conditions all use the
single CryptoError variant, with the same variant tag, distinguishable
only by message text rather than by distinct typed kinds. -/
theorem C8_amended_single_variant :
    (∀ fs k e, (write_key fs k).snd = Except.error e →
      e = Error.cryptoError (conflictMsg k.own_filename)) ∧
    (∀ fs pk sk, pk.named_revision ≠ sk.named_revision →
      (write_pair fs pk sk).snd = Except.error (Error.cryptoError pairMismatchMsg)) ∧
    (∀ kind fs n, get_latest_path_for fs n kind.extension = none →
      fetch_latest_revision kind fs n =
        Except.error (Error.cryptoError (noRevisionsMsg n))) ∧
    (∀ kind fs nr, lookupFS fs (filenameFor nr kind.extension) = none →
      fetch_specific_revision kind fs nr =
        Except.error (Error.cryptoError (keyNotFoundMsg (filenameFor nr kind.extension)))) ∧
    (∀ m m', Error.tag (Error.cryptoError m) = Error.tag (Error.cryptoError m')) := by
  refine ⟨?_, ?_, ?_, ?_, fun m m' => rfl⟩
  · intro fs k e h
    cases hl : lookupFS fs k.own_filename with
    | none =>
        rw [write_key_of_absent fs k hl] at h
        simp at h
    | some fd =>
        by_cases hc : fd.content = FileContent.key k
        · rw [write_key_of_same fs k fd hl hc] at h
          simp at h
        · rw [write_key_of_conflict fs k fd hl hc] at h
          simp at h
          exact h.symm
  · intro fs pk sk h
    simp [write_pair, h]
  · intro kind fs n h
    simp [fetch_latest_revision, h]
  · intro kind fs nr h
    simp [fetch_specific_revision, h]

/-- Witness for the amended C8 at concrete inputs for each of the four
conditions. -/
theorem C8_witness :
    Error.cryptoError (conflictMsg "beyonce-20160504220722.sym.key") =
      Error.cryptoError (conflictMsg k8w.own_filename) ∧
    (write_pair [] pk8w sk8w).snd = Except.error (Error.cryptoError pairMismatchMsg) ∧
    fetch_latest_revision ringKind [] "nobody" =
      Except.error (Error.cryptoError (noRevisionsMsg "nobody")) ∧
    fetch_specific_revision ringKind [] ⟨"nobody", "20240101120000"⟩ =
      Except.error (Error.cryptoError
        (keyNotFoundMsg (filenameFor ⟨"nobody", "20240101120000"⟩ ringKind.extension))) ∧
    Error.tag (Error.cryptoError "a") = Error.tag (Error.cryptoError "b") :=
  ⟨C8_amended_single_variant.1 fs8w k8w
      (Error.cryptoError (conflictMsg "beyonce-20160504220722.sym.key")) (by decide),
    C8_amended_single_variant.2.1 [] pk8w sk8w (by decide),
    C8_amended_single_variant.2.2.1 ringKind [] "nobody" (by decide),
    C8_amended_single_variant.2.2.2.1 ringKind [] ⟨"nobody", "20240101120000"⟩ (by decide),
    C8_amended_single_variant.2.2.2.2 "a" "b"⟩

/-- Key record used for the C10 witness. -/
def k10w : KeyRecord := ⟨ringKind, ⟨"beyonce", "20160504220722"⟩, "ring-material"⟩

/-- Directory used for the C10 witness: the destination file already
holds identical content but with mode 511, not the ring kind's 384. -/
def fs10w : FS := [("beyonce-20160504220722.sym.key", ⟨FileContent.key k10w, 511⟩)]

/-- Witness for C10: the no-op write keeps the file's divergent
permission mode 511 instead of re-applying the kind's 384. -/
theorem C10_witness :
    (511 : Nat) ≠ k10w.kind.permissions ∧
    (write_key fs10w k10w = (fs10w, Except.ok ()) ∧
      lookupFS (write_key fs10w k10w).fst k10w.own_filename =
        some ⟨FileContent.key k10w, 511⟩) :=
  ⟨by decide,
    C10_write_key_noop_keeps_mode fs10w k10w ⟨FileContent.key k10w, 511⟩
      (by decide) (by decide)⟩

end Habitat
